import Mathlib

/-!
# Verification of the extended audio generation core

Shallow embedding of `src/audio/extended_generation.rs` and
`src/backend/extended_audio_backend.rs`.

Modelling conventions:
* `f32` sample values, progress fractions and the fractional
  `crossfade_duration` field are modelled as `ℚ`.  All arithmetic the
  claims depend on (linear interpolation with ramps `i/n`, comparisons
  against integer bounds) is exact in `f32` at the scales involved, so
  the rational model is faithful.
* `usize` is modelled as `ℕ`; Rust's saturating subtraction coincides
  with truncated `ℕ` subtraction.
* `Result<T, String>` is modelled as `Option (List ℚ)`; the error
  string payloads are irrelevant to every claim and are elided.
* Progress callbacks are side-effecting in Rust.  They are modelled by
  making every operation return, next to its result, the ordered list
  of values it passes to the callback, and by threading the callback's
  boolean replies in from an explicit reply function where the code
  consults them.
-/

namespace MusicGptClones

/-- `ExtendedGenerationConfig` from `extended_generation.rs` lines 9-19.
`crossfade_duration` is `f32` in the source, modelled as `ℚ`. -/
structure ExtendedGenerationConfig where
  target_duration : ℕ
  segment_duration : ℕ
  overlap_duration : ℕ
  crossfade_duration : ℚ
deriving DecidableEq, Repr

/-- The `Default` impl, lines 21-30: 240 s target, 28 s segments,
4 s overlap, 2.0 s crossfade. -/
def ExtendedGenerationConfig.default : ExtendedGenerationConfig :=
  { target_duration := 240
    segment_duration := 28
    overlap_duration := 4
    crossfade_duration := 2 }

/-- `ExtendedGenerationConfig::validate`, lines 33-44: three checks in
source order, early-returning the corresponding error string. -/
def ExtendedGenerationConfig.validate (c : ExtendedGenerationConfig) : Except String Unit :=
  if c.segment_duration > 30 then
    Except.error "Segment duration cannot exceed 30 seconds due to model limitations"
  else if c.overlap_duration ≥ c.segment_duration then
    Except.error "Overlap duration must be less than segment duration"
  else if c.crossfade_duration > (c.overlap_duration : ℚ) then
    Except.error "Crossfade duration must be less than or equal to overlap duration"
  else
    Except.ok ()

/-- `ExtendedGenerationConfig::num_segments`, lines 46-49.  `usize`
division by zero (reachable only for invalid configs, where Rust would
panic) is totalised to 0 by `ℕ` division. -/
def ExtendedGenerationConfig.num_segments (c : ExtendedGenerationConfig) : ℕ :=
  let effective_segment := c.segment_duration - c.overlap_duration
  max ((c.target_duration + effective_segment - 1) / effective_segment) 1

/-- `ExtendedAudioGenerator::create_segment_prompt`, lines 133-142.
Rust's `match` with guards is an if-chain; `format!("{} (…)", p)` is
string append. -/
def create_segment_prompt (base_prompt : String) (segment_index total_segments : ℕ) : String :=
  if segment_index = 0 then
    base_prompt ++ " (introduction, opening)"
  else if segment_index = total_segments - 1 then
    base_prompt ++ " (conclusion, ending, outro)"
  else if segment_index = total_segments / 2 then
    base_prompt ++ " (bridge, development, variation)"
  else if segment_index < total_segments / 3 then
    base_prompt ++ " (building, developing)"
  else
    base_prompt

/-- One iteration of the crossfade loop, lines 162-173: a write of the
linear blend at `crossfade_start + i`, guarded exactly as in source by
`idx < segment1.len() && i < segment2.len()`. -/
def crossfadeStep (crossfade_start crossfade_samples : ℕ) (segment2 : List ℚ)
    (segment1 : List ℚ) (i : ℕ) : List ℚ :=
  let fade_position : ℚ := (i : ℚ) / (crossfade_samples : ℚ)
  let idx := crossfade_start + i
  if idx < segment1.length ∧ i < segment2.length then
    segment1.set idx
      (segment1.getD idx 0 * (1 - fade_position) + segment2.getD i 0 * fade_position)
  else
    segment1

/-- `ExtendedAudioGenerator::crossfade_segments`, lines 145-180. -/
def crossfade_segments (segment1 segment2 : List ℚ)
    (overlap_samples crossfade_samples : ℕ) : List ℚ :=
  if segment1.length < overlap_samples then
    segment1 ++ segment2
  else
    let crossfade_start := segment1.length - crossfade_samples
    let blended := (List.range (min crossfade_samples segment2.length)).foldl
      (crossfadeStep crossfade_start crossfade_samples segment2) segment1
    let skip_samples := min crossfade_samples segment2.length
    blended ++ segment2.drop skip_samples

/-- `ExtendedAudioGenerator::apply_smoothing`, lines 183-200: rising
ramp `i/window_size` over the first window, then factor
`(window_size - i)/window_size` written at index `len - 1 - i`. -/
def apply_smoothing (audio : List ℚ) (window_size : ℕ) : List ℚ :=
  if audio.length < window_size * 2 then
    audio
  else
    let a1 := (List.range window_size).foldl
      (fun a i => a.set i (a.getD i 0 * ((i : ℚ) / (window_size : ℚ)))) audio
    let len := a1.length
    (List.range window_size).foldl
      (fun a i =>
        a.set (len - 1 - i)
          (a.getD (len - 1 - i) 0 * (((window_size - i : ℕ) : ℚ) / (window_size : ℚ)))) a1

/-- The progress value handed to the top-level callback for segment
`segment_index` of `num_segments` when the segment reports
`seg_progress`: `segment_progress + seg_progress / num_segments` with
`segment_progress = segment_index / num_segments` (lines 88 and 102). -/
def total_progress (segment_index num_segments : ℕ) (seg_progress : ℚ) : ℚ :=
  (segment_index : ℚ) / (num_segments : ℚ) + seg_progress / (num_segments : ℚ)

/-- The `SegmentGenerator` trait, lines 53-61, in pure form: from
(prompt, duration, segment index) to the optional sample buffer and the
ordered sub-progress values it passes to `on_progress`. -/
def SegmentGenerator : Type :=
  String → ℕ → ℕ → Option (List ℚ) × List ℚ

/-- The segment loop of `ExtendedAudioGenerator::generate`, lines
85-122, over an explicit list of segment indices.  Returns the
accumulated buffer (or `none` on segment failure, which aborts the
request) and the list of values handed to the top-level progress
callback. -/
def generateLoop (segGen : SegmentGenerator) (cfg : ExtendedGenerationConfig)
    (sample_rate : ℕ) (prompt : String) (num_segments : ℕ) :
    List ℕ → List ℚ → Option (List ℚ) × List ℚ
  | [], final_audio => (some final_audio, [])
  | i :: rest, final_audio =>
    let segment_prompt := create_segment_prompt prompt i num_segments
    let call := segGen segment_prompt cfg.segment_duration i
    let reported := call.2.map (total_progress i num_segments)
    match call.1 with
    | none => (none, reported)
    | some segment_audio =>
      let new_audio :=
        if i = 0 then
          final_audio ++ segment_audio
        else
          crossfade_segments final_audio segment_audio
            (cfg.overlap_duration * sample_rate)
            (Int.toNat ⌊cfg.crossfade_duration * (sample_rate : ℚ)⌋)
      let next := generateLoop segGen cfg sample_rate prompt num_segments rest new_audio
      (next.1, reported ++ next.2)

/-- `ExtendedAudioGenerator::generate`, lines 76-130: run the loop over
`0 .. num_segments`, then truncate to `target_duration * sample_rate`
samples. -/
def generate (segGen : SegmentGenerator) (cfg : ExtendedGenerationConfig)
    (sample_rate : ℕ) (prompt : String) : Option (List ℚ) × List ℚ :=
  let n := cfg.num_segments
  let run := generateLoop segGen cfg sample_rate prompt n (List.range n) []
  (run.1.map (fun buf => buf.take (cfg.target_duration * sample_rate)), run.2)

/-- Modelled from the spec: the `JobProcessor` trait lives in
`src/backend/audio_generation_backend.rs`, which is not part of this
repository snapshot.  Per spec §6 the base capability is
`process(prompt, seconds, on_progress(elapsed, total) → abort) →
Sample Buffer | Error`; it is modelled as a deterministic behaviour
giving, for each (prompt, seconds), the ordered `(elapsed, total)`
progress pairs it reports and the sample buffer it returns when not
aborted. -/
structure JobProcessorModel where
  emits : String → ℕ → List (ℚ × ℚ)
  samples : String → ℕ → List ℚ

/-- Modelled from the spec: one run of a base `JobProcessor`.  The
processor reports its progress pairs in order, asking the callback at
each; the first `true` reply aborts the run with an error (spec §6
abort contract, mirrored by the repository's `DummyProcessor` test
double).  Returns the result and the pairs actually reported. -/
def jobProcessorRun (samples : List ℚ) (on_progress : ℚ → ℚ → Bool) :
    List (ℚ × ℚ) → Option (List ℚ) × List (ℚ × ℚ)
  | [] => (some samples, [])
  | e :: rest =>
    if on_progress e.1 e.2 then
      (none, [e])
    else
      let next := jobProcessorRun samples on_progress rest
      (next.1, e :: next.2)

/-- Run a modelled base processor on a request. -/
def runJobProcessor (processor : JobProcessorModel) (prompt : String) (secs : ℕ)
    (on_progress : ℚ → ℚ → Bool) : Option (List ℚ) × List (ℚ × ℚ) :=
  jobProcessorRun (processor.samples prompt secs) on_progress (processor.emits prompt secs)

/-- `MusicGPTSegmentGenerator::generate_segment`,
`extended_audio_backend.rs` lines 22-46: cap the duration at 30, call
the base processor with a callback that forwards `elapsed / total` as
the sub-progress value and always replies `false` ("Don't abort"). -/
def MusicGPTSegmentGenerator (processor : JobProcessorModel) : SegmentGenerator :=
  fun prompt duration _segment_index =>
    let safe_duration := min duration 30
    let run := runJobProcessor processor prompt safe_duration (fun _ _ => false)
    (run.1, run.2.map (fun et => et.1 / et.2))

/-- `ExtendedJobProcessor::process`, `extended_audio_backend.rs` lines
88-103 (with `generate_extended`, lines 68-86 inlined): requests of at
most 30 s go to the base processor with the caller's callback
unchanged; longer requests run the extended generator, whose top-level
progress `p` reaches the caller's callback as `(p, 1.0)` with the
boolean reply discarded. -/
def ExtendedJobProcessor.process (base_processor : JobProcessorModel)
    (cfg : ExtendedGenerationConfig) (sample_rate : ℕ) (prompt : String) (secs : ℕ)
    (on_progress : ℚ → ℚ → Bool) : Option (List ℚ) × List (ℚ × ℚ) :=
  if secs ≤ 30 then
    runJobProcessor base_processor prompt secs on_progress
  else
    let run := generate (MusicGPTSegmentGenerator base_processor) cfg sample_rate prompt
    (run.1, run.2.map (fun p => (p, 1)))

/-- Modelled from the spec: the positional-hint table of §4.3 step 2b,
in its stated fixed priority order, each entry a (condition, appended
hint text) pair. -/
def spec_hint_conditions (segment_index total_segments : ℕ) : List (Bool × String) :=
  [(decide (segment_index = 0), " (introduction, opening)"),
   (decide (segment_index = total_segments - 1), " (conclusion, ending, outro)"),
   (decide (segment_index = total_segments / 2), " (bridge, development, variation)"),
   (decide (segment_index < total_segments / 3), " (building, developing)")]

/-- Modelled from the spec: the text appended to the base prompt is the
hint of the first matching condition, or nothing when none matches. -/
def spec_positional_hint (segment_index total_segments : ℕ) : String :=
  match (spec_hint_conditions segment_index total_segments).find? (fun c => c.1) with
  | some c => c.2
  | none => ""

/-- The buffers of the repository's `test_crossfade` (lines 272-291):
10000 samples of 1.0 crossfaded with 10000 samples of 0.0, overlap
2000, crossfade 1000. -/
def test_crossfade_result : List ℚ :=
  crossfade_segments (List.replicate 10000 1) (List.replicate 10000 0) 2000 1000

/-- Base processor used for the dispatch counterexample: no progress
events, every request answered with 50 samples of 0.5 (used with
`sample_rate = 1`, so each 28-second segment over-delivers). -/
def bigSegmentProcessor : JobProcessorModel :=
  { emits := fun _ _ => []
    samples := fun _ _ => List.replicate 50 (1/2) }

/-- A 60-second plan with the documented segment parameters. -/
def sixtySecondConfig : ExtendedGenerationConfig :=
  { target_duration := 60
    segment_duration := 28
    overlap_duration := 4
    crossfade_duration := 2 }

/-! ## Blend Engine lemmas -/

/-- Each crossfade write is length-preserving: the loop body only ever
overwrites an existing, in-bounds position. -/
theorem length_foldl_crossfadeStep (st cf : ℕ) (b2 : List ℚ) :
    ∀ (l : List ℕ) (s1 : List ℚ),
      (l.foldl (crossfadeStep st cf b2) s1).length = s1.length := by
  intro l
  induction l with
  | nil => intro s1; rfl
  | cons i t ih =>
    intro s1
    rw [List.foldl_cons, ih]
    unfold crossfadeStep
    dsimp only
    split
    · exact List.length_set ..
    · rfl

/-- Length of `crossfade_segments` in both branches. -/
theorem crossfade_segments_length (s1 s2 : List ℚ) (ov cf : ℕ) :
    (crossfade_segments s1 s2 ov cf).length =
      if s1.length < ov then s1.length + s2.length
      else s1.length + s2.length - min cf s2.length := by
  unfold crossfade_segments
  split
  · simp
  · simp only [List.length_append, length_foldl_crossfadeStep, List.length_drop]
    omega

/-- With `crossfade_samples = 0` the blend loop is empty and nothing is
skipped: the result is the plain concatenation in both branches. -/
theorem crossfade_segments_zero (s1 s2 : List ℚ) (ov : ℕ) :
    crossfade_segments s1 s2 ov 0 = s1 ++ s2 := by
  unfold crossfade_segments
  split
  · rfl
  · simp

/-- Value-level characterisation of the blend loop: after folding over
`range n`, position `p` holds the linear blend of the original values
when `p` lies in the written window (and the guards held), and is
untouched otherwise. -/
theorem foldl_crossfadeStep_getElem? (st cf : ℕ) (b2 : List ℚ) :
    ∀ (n : ℕ) (s1 : List ℚ) (p : ℕ), p < s1.length →
      ((List.range n).foldl (crossfadeStep st cf b2) s1)[p]? =
        if st ≤ p ∧ p < st + n ∧ p - st < b2.length then
          some (s1.getD p 0 * (1 - ((p - st : ℕ) : ℚ) / (cf : ℚ)) +
            b2.getD (p - st) 0 * (((p - st : ℕ) : ℚ) / (cf : ℚ)))
        else s1[p]? := by
  intro n
  induction n with
  | zero =>
    intro s1 p hp
    rw [if_neg (by omega)]
    rfl
  | succ n ih =>
    intro s1 p hp
    rw [List.range_succ, List.foldl_append, List.foldl_cons, List.foldl_nil]
    have hlen : ((List.range n).foldl (crossfadeStep st cf b2) s1).length = s1.length :=
      length_foldl_crossfadeStep st cf b2 _ s1
    have hstep : ∀ (s : List ℚ) (i : ℕ), crossfadeStep st cf b2 s i =
        if st + i < s.length ∧ i < b2.length then
          s.set (st + i)
            (s.getD (st + i) 0 * (1 - (i : ℚ) / (cf : ℚ)) + b2.getD i 0 * ((i : ℚ) / (cf : ℚ)))
        else s := fun s i => rfl
    rw [hstep]
    split
    · rename_i hguard
      rw [hlen] at hguard
      have hmid : ((List.range n).foldl (crossfadeStep st cf b2) s1)[st + n]? = s1[st + n]? := by
        rw [ih s1 (st + n) hguard.1, if_neg (by omega)]
      have hmidD : ((List.range n).foldl (crossfadeStep st cf b2) s1).getD (st + n) 0 =
          s1.getD (st + n) 0 := by
        rw [List.getD_eq_getElem?_getD, List.getD_eq_getElem?_getD, hmid]
      by_cases hpn : p = st + n
      · subst hpn
        rw [List.getElem?_set_self (by rw [hlen]; exact hguard.1)]
        rw [if_pos (by omega)]
        rw [hmidD, show st + n - st = n from by omega]
      · rw [List.getElem?_set_ne (fun h => hpn h.symm)]
        rw [ih s1 p hp]
        by_cases hc : st ≤ p ∧ p < st + n ∧ p - st < b2.length
        · rw [if_pos hc, if_pos (by omega)]
        · rw [if_neg hc, if_neg (by omega)]
    · rename_i hguard
      rw [hlen] at hguard
      rw [ih s1 p hp]
      by_cases hc : st ≤ p ∧ p < st + n ∧ p - st < b2.length
      · rw [if_pos hc, if_pos (by omega)]
      · rw [if_neg hc, if_neg (fun h => by
          apply hc
          refine ⟨h.1, ?_, h.2.2⟩
          rcases Nat.lt_succ_iff_lt_or_eq.mp (by omega : p - st < n + 1) with h' | h'
          · omega
          · exfalso
            apply hguard
            constructor <;> omega)]

/-- Values of `test_crossfade_result` across the fade window. -/
theorem test_crossfade_result_getElem (k : ℕ) (hk : k < 1000) :
    test_crossfade_result[9000 + k]? = some (1 - (k : ℚ) / 1000) := by
  unfold test_crossfade_result crossfade_segments
  rw [if_neg (by rw [List.length_replicate]; omega)]
  dsimp only
  have h1 : (List.replicate 10000 (1:ℚ)).length = 10000 := by rw [List.length_replicate]
  have h2 : (List.replicate 10000 (0:ℚ)).length = 10000 := by rw [List.length_replicate]
  rw [h1, h2]
  have hm : min 1000 10000 = 1000 := by norm_num
  rw [hm]
  have hblen : ((List.range 1000).foldl
      (crossfadeStep (10000 - 1000) 1000 (List.replicate 10000 (0:ℚ)))
      (List.replicate 10000 1)).length = 10000 := by
    rw [length_foldl_crossfadeStep, List.length_replicate]
  rw [List.getElem?_append_left (by rw [hblen]; omega)]
  rw [foldl_crossfadeStep_getElem? (10000 - 1000) 1000 (List.replicate 10000 0) 1000
    (List.replicate 10000 1) (9000 + k) (by rw [List.length_replicate]; omega)]
  rw [if_pos (by constructor <;> omega)]
  have hsub : 9000 + k - (10000 - 1000) = k := by omega
  rw [hsub]
  have hg1 : (List.replicate 10000 (1:ℚ)).getD (9000 + k) 0 = 1 := by
    rw [List.getD_eq_getElem?_getD, List.getElem?_replicate, if_pos (by omega)]
    rfl
  have hg2 : (List.replicate 10000 (0:ℚ)).getD k 0 = 0 := by
    rw [List.getD_eq_getElem?_getD, List.getElem?_replicate, if_pos (by omega)]
    rfl
  rw [hg1, hg2]
  ring_nf

/-! ## Claim theorems: Blend Engine -/

/-- C2: for all buffers and parameters, when `len(buf1) < overlap_samples`
the crossfade returns the plain concatenation of `buf1` and `buf2`
(hence of length `len(buf1) + len(buf2)` with no sample changed), and
otherwise the result has length
`len(buf1) + len(buf2) − min(crossfade_samples, len(buf2))`. -/
theorem crossfade_fallback_and_length (b1 b2 : List ℚ) (ov cf : ℕ) :
    (b1.length < ov → crossfade_segments b1 b2 ov cf = b1 ++ b2) ∧
    (crossfade_segments b1 b2 ov cf).length =
      if b1.length < ov then b1.length + b2.length
      else b1.length + b2.length - min cf b2.length := by
  refine ⟨fun h => ?_, crossfade_segments_length b1 b2 ov cf⟩
  unfold crossfade_segments
  rw [if_pos h]

/-- Witness for C2 at a concrete fallback input. -/
theorem crossfade_fallback_and_length_witness :
    crossfade_segments [5] [7, 8] 3 1 = [5] ++ [7, 8] ∧
    (crossfade_segments [5] [7, 8] 3 1).length = 3 := by
  have h := crossfade_fallback_and_length [5] [7, 8] 3 1
  exact ⟨h.1 (by norm_num), by simpa using h.2⟩

/-- C10: `crossfade_segments` is total on arbitrary inputs, including
degenerate parameter values: every blend write stays in bounds (the
guarded loop body preserves the buffer's length for any number of
iterations), with `crossfade_samples = 0` the blend loop is empty and
the result is the plain concatenation (so the `i / crossfade_samples`
division is never executed), and a result buffer of bounded length is
always returned. -/
theorem crossfade_segments_total (b1 b2 : List ℚ) (ov cf n : ℕ) :
    ((List.range n).foldl (crossfadeStep (b1.length - cf) cf b2) b1).length = b1.length ∧
    (cf = 0 → crossfade_segments b1 b2 ov cf = b1 ++ b2) ∧
    b1.length ≤ (crossfade_segments b1 b2 ov cf).length ∧
    (crossfade_segments b1 b2 ov cf).length ≤ b1.length + b2.length := by
  refine ⟨length_foldl_crossfadeStep _ _ _ _ _,
    fun h => by subst h; exact crossfade_segments_zero b1 b2 ov, ?_, ?_⟩
  · rw [crossfade_segments_length]; split <;> omega
  · rw [crossfade_segments_length]; split <;> omega

/-- Witness for C10 at a concrete degenerate input. -/
theorem crossfade_segments_total_witness :
    ((List.range 3).foldl (crossfadeStep (([1, 2] : List ℚ).length - 0) 0 [3, 4]) [1, 2]).length
      = ([1, 2] : List ℚ).length ∧
    crossfade_segments [1, 2] [3, 4] 1 0 = [1, 2] ++ [3, 4] ∧
    ([1, 2] : List ℚ).length ≤ (crossfade_segments [1, 2] [3, 4] 1 0).length ∧
    (crossfade_segments [1, 2] [3, 4] 1 0).length
      ≤ ([1, 2] : List ℚ).length + ([3, 4] : List ℚ).length := by
  obtain ⟨a, b, c, d⟩ := crossfade_segments_total [1, 2] [3, 4] 1 0 3
  exact ⟨a, b rfl, c, d⟩

/-- C7 counterexample: in the concrete test-crossfade scenario the
sample at the first blended index 9000 equals 1.0 — the fade position
is 0 there, so the value is NOT strictly between 0.0 and 1.0 as the
claim requires of every blended index. -/
theorem test_crossfade_strictness_counterexample :
    test_crossfade_result.getD 9000 0 = 1 ∧ ¬ test_crossfade_result.getD 9000 0 < 1 := by
  have h := test_crossfade_result_getElem 0 (by norm_num)
  norm_num at h
  rw [List.getD_eq_getElem?_getD, h]
  norm_num

/-- C7 (amended): the concrete crossfade result has length exactly
19000, the sample at the first blended index 9000 equals 1.0, every
other blended sample (indices 9001-9999) is strictly between 0.0 and
1.0, and the sample at the midpoint index 9500 of the fade region is
exactly 0.5. -/
theorem test_crossfade_concrete (k : ℕ) (hk1 : 1 ≤ k) (hk2 : k < 1000) :
    test_crossfade_result.length = 19000 ∧
    test_crossfade_result.getD 9000 0 = 1 ∧
    test_crossfade_result.getD 9500 0 = 1/2 ∧
    0 < test_crossfade_result.getD (9000 + k) 0 ∧
    test_crossfade_result.getD (9000 + k) 0 < 1 := by
  have hv : ∀ m : ℕ, m < 1000 → test_crossfade_result.getD (9000 + m) 0 = 1 - (m : ℚ) / 1000 := by
    intro m hm
    rw [List.getD_eq_getElem?_getD, test_crossfade_result_getElem m hm]
    rfl
  refine ⟨?_, ?_, ?_, ?_, ?_⟩
  · unfold test_crossfade_result
    rw [crossfade_segments_length, List.length_replicate, List.length_replicate]
    norm_num
  · have h := hv 0 (by norm_num)
    norm_num at h
    rw [List.getD_eq_getElem?_getD]
    exact h
  · have h := hv 500 (by norm_num)
    norm_num at h
    rw [List.getD_eq_getElem?_getD]
    exact h
  · rw [hv k hk2, sub_pos, div_lt_one (by norm_num)]
    exact_mod_cast hk2
  · have hkpos : (0 : ℚ) < (k : ℚ) := by exact_mod_cast hk1
    rw [hv k hk2]
    exact sub_lt_self 1 (div_pos hkpos (by norm_num))

/-- Witness for C7 at the fade-region midpoint. -/
theorem test_crossfade_concrete_witness :
    test_crossfade_result.length = 19000 ∧
    test_crossfade_result.getD 9000 0 = 1 ∧
    test_crossfade_result.getD 9500 0 = 1/2 ∧
    0 < test_crossfade_result.getD (9000 + 500) 0 ∧
    test_crossfade_result.getD (9000 + 500) 0 < 1 :=
  test_crossfade_concrete 500 (by norm_num) (by norm_num)

/-! ## Claim theorems: Generation Plan -/

/-- The `(t + e - 1) / e` idiom computes the rational ceiling of
`t / e`. -/
theorem ceil_div_eq_add_pred_div (t e : ℕ) (he : 0 < e) :
    ⌈(t : ℚ) / (e : ℚ)⌉ = (((t + e - 1) / e : ℕ) : ℤ) := by
  have he' : (0 : ℚ) < (e : ℚ) := by exact_mod_cast he
  set q : ℕ := (t + e - 1) / e with hq
  have h1 : q * e ≤ t + e - 1 := Nat.div_mul_le_self _ _
  have h2 : t + e - 1 < (q + 1) * e := (Nat.div_lt_iff_lt_mul he).mp (Nat.lt_succ_self q)
  have h1z : (q : ℤ) * e ≤ (t : ℤ) + e - 1 := by
    zify [show 1 ≤ t + e by omega] at h1
    exact h1
  have h2z : (t : ℤ) + e - 1 < ((q : ℤ) + 1) * e := by
    zify [show 1 ≤ t + e by omega] at h2
    exact_mod_cast h2
  rw [Int.ceil_eq_iff]
  constructor
  · rw [lt_div_iff₀ he']
    have h1q : (q : ℚ) * e ≤ (t : ℚ) + e - 1 := by exact_mod_cast h1z
    push_cast
    linarith
  · rw [div_le_iff₀ he']
    have h2w : (t : ℤ) ≤ (q : ℤ) * e := by
      have hlt : (t : ℤ) < (q : ℤ) * e + 1 := by linarith [h2z]
      exact Int.lt_add_one_iff.mp hlt
    exact_mod_cast h2w

/-- C3: for every plan with `overlap_duration < segment_duration`,
`num_segments` equals the rational ceiling of `target_duration`
divided by `segment_duration − overlap_duration`, floored at a minimum
of 1; in particular it is at least 1 even for `target_duration = 0`. -/
theorem num_segments_spec (c : ExtendedGenerationConfig)
    (h : c.overlap_duration < c.segment_duration) :
    1 ≤ c.num_segments ∧
    c.num_segments =
      max (⌈(c.target_duration : ℚ) /
        ((c.segment_duration - c.overlap_duration : ℕ) : ℚ)⌉.toNat) 1 := by
  have he : 0 < c.segment_duration - c.overlap_duration := by omega
  have hns : c.num_segments =
      max ((c.target_duration + (c.segment_duration - c.overlap_duration) - 1) /
        (c.segment_duration - c.overlap_duration)) 1 := rfl
  refine ⟨?_, ?_⟩
  · rw [hns]; exact le_max_right _ 1
  · rw [hns, ceil_div_eq_add_pred_div _ _ he, Int.toNat_natCast]

/-- Witness for C3 at the documented default configuration. -/
theorem num_segments_spec_witness :
    ExtendedGenerationConfig.default.overlap_duration <
      ExtendedGenerationConfig.default.segment_duration ∧
    (1 ≤ ExtendedGenerationConfig.default.num_segments ∧
      ExtendedGenerationConfig.default.num_segments =
        max (⌈(ExtendedGenerationConfig.default.target_duration : ℚ) /
          ((ExtendedGenerationConfig.default.segment_duration -
            ExtendedGenerationConfig.default.overlap_duration : ℕ) : ℚ)⌉.toNat) 1) :=
  ⟨by decide, num_segments_spec ExtendedGenerationConfig.default (by decide)⟩

/-- C4: `validate` succeeds exactly when none of the three documented
conditions holds — it errors iff `segment_duration > 30`, or
`overlap_duration ≥ segment_duration`, or
`crossfade_duration > overlap_duration` — it is a pure check, and it
succeeds on the documented default values (240, 28, 4, 2.0). -/
theorem validate_spec (c : ExtendedGenerationConfig) :
    (c.validate = Except.ok () ↔
      ¬(30 < c.segment_duration ∨ c.segment_duration ≤ c.overlap_duration ∨
        (c.overlap_duration : ℚ) < c.crossfade_duration)) ∧
    ExtendedGenerationConfig.default.validate = Except.ok () := by
  constructor
  · unfold ExtendedGenerationConfig.validate
    split_ifs with h1 h2 h3
    · exact iff_of_false (fun hc => hc) (fun hn => hn (Or.inl h1))
    · exact iff_of_false (fun hc => hc) (fun hn => hn (Or.inr (Or.inl h2)))
    · exact iff_of_false (fun hc => hc) (fun hn => hn (Or.inr (Or.inr h3)))
    · exact iff_of_true rfl (not_or.mpr ⟨h1, not_or.mpr ⟨h2, h3⟩⟩)
  · rfl

/-- Witness for C4: a configuration breaking the first condition is
rejected. -/
theorem validate_spec_witness :
    (ExtendedGenerationConfig.mk 240 35 4 2).validate ≠ Except.ok () :=
  fun hok =>
    ((validate_spec (ExtendedGenerationConfig.mk 240 35 4 2)).1.mp hok)
      (Or.inl (by norm_num))

/-! ## Claim theorems: prompt policy and smoothing -/

/-- C9: for every segment index and count, the contextual prompt is the
base prompt with exactly the hint of the first matching condition in
the fixed priority order appended (introduction, conclusion, bridge,
building, in that order), and never a combination of hints — also when
the conditions coincide for small segment counts. -/
theorem create_segment_prompt_spec (p : String) (i n : ℕ) :
    create_segment_prompt p i n = p ++ spec_positional_hint i n := by
  unfold create_segment_prompt spec_positional_hint spec_hint_conditions
  by_cases h0 : i = 0
  · rw [if_pos h0, List.find?_cons_of_pos _ (by simpa using h0)]
  · rw [if_neg h0, List.find?_cons_of_neg _ (by simpa using h0)]
    by_cases h1 : i = n - 1
    · rw [if_pos h1, List.find?_cons_of_pos _ (by simpa using h1)]
    · rw [if_neg h1, List.find?_cons_of_neg _ (by simpa using h1)]
      by_cases h2 : i = n / 2
      · rw [if_pos h2, List.find?_cons_of_pos _ (by simpa using h2)]
      · rw [if_neg h2, List.find?_cons_of_neg _ (by simpa using h2)]
        by_cases h3 : i < n / 3
        · rw [if_pos h3, List.find?_cons_of_pos _ (by simpa using h3)]
        · rw [if_neg h3, List.find?_cons_of_neg _ (by simpa using h3)]
          rw [List.find?_nil, String.append_empty]

/-- C6 evaluation: on the failing input (buffer `[1, 1, 1, 1]`, window
size 2) the end ramp leaves the LAST sample at full amplitude — factor
`(2 − 0)/2 = 1` is applied at index `len − 1` — instead of scaling it
toward zero; only the interior sample at `len − 2` gets the small
factor `1/2`. -/
theorem apply_smoothing_end_not_faded :
    apply_smoothing [1, 1, 1, 1] 2 = [0, 1/2, 1/2, 1] := by
  norm_num [apply_smoothing, List.range_succ]

/-! ## Progress monotonicity -/

/-- Division by a natural number (possibly 0) is monotone. -/
theorem div_nat_mono (a b : ℚ) (n : ℕ) (h : a ≤ b) : a / (n : ℚ) ≤ b / (n : ℚ) := by
  rw [div_eq_mul_inv, div_eq_mul_inv]
  exact mul_le_mul_of_nonneg_right h (by positivity)

/-- A sub-progress value in `[0, 1]` is remapped into segment `i`'s
progress window `[i/n, (i+1)/n]`. -/
theorem total_progress_bounds (i n : ℕ) (p : ℚ) (h0 : 0 ≤ p) (h1 : p ≤ 1) :
    (i : ℚ) / n ≤ total_progress i n p ∧ total_progress i n p ≤ ((i : ℚ) + 1) / n := by
  unfold total_progress
  constructor
  · have hge : 0 ≤ p / (n : ℚ) := div_nonneg h0 (by positivity)
    linarith
  · have hp : p / (n : ℚ) ≤ 1 / (n : ℚ) := div_nat_mono p 1 n h1
    rw [add_div]
    linarith

/-- The remap of sub-progress into the total progress is monotone. -/
theorem total_progress_mono (i n : ℕ) (p q : ℚ) (h : p ≤ q) :
    total_progress i n p ≤ total_progress i n q := by
  unfold total_progress
  have := div_nat_mono p q n h
  linarith

/-- If every block `blocks i` is a non-decreasing run inside segment
`i`'s progress window, then the concatenation over any strictly
increasing index list is non-decreasing. -/
theorem chain_flatMap_blocks (n : ℕ) (blocks : ℕ → List ℚ)
    (hchain : ∀ i, List.Chain' (· ≤ ·) (blocks i))
    (hlo : ∀ i, ∀ v ∈ blocks i, (i : ℚ) / n ≤ v)
    (hhi : ∀ i, ∀ v ∈ blocks i, v ≤ ((i : ℚ) + 1) / n) :
    ∀ l : List ℕ, l.Pairwise (· < ·) →
      List.Chain' (· ≤ ·) (l.flatMap blocks) := by
  intro l
  induction l with
  | nil => intro _; simp
  | cons i t ih =>
    intro hp
    rcases List.pairwise_cons.mp hp with ⟨hall, htail⟩
    rw [List.flatMap_cons]
    refine List.Chain'.append (hchain i) (ih htail) ?_
    intro x hx y hy
    have hxmem : x ∈ blocks i := List.mem_of_mem_getLast? hx
    have hymem : y ∈ t.flatMap blocks := List.mem_of_mem_head? hy
    rcases List.mem_flatMap.mp hymem with ⟨j, hjt, hyb⟩
    have hij : i < j := hall j hjt
    have hx' : x ≤ ((i : ℚ) + 1) / n := hhi i x hxmem
    have hy' : (j : ℚ) / n ≤ y := hlo j y hyb
    have hcast : ((i : ℚ) + 1) ≤ (j : ℚ) := by
      have : (i + 1 : ℕ) ≤ j := hij
      exact_mod_cast this
    have hmid := div_nat_mono ((i : ℚ) + 1) (j : ℚ) n hcast
    linarith

/-- The trace handed to the top-level callback by the segment loop is
the concatenation of per-segment reported blocks over the processed
indices — a sublist of the requested indices (a proper one exactly when
a segment failed). -/
theorem generateLoop_trace_flatMap (segGen : SegmentGenerator)
    (cfg : ExtendedGenerationConfig) (sr : ℕ) (prompt : String) (n : ℕ) :
    ∀ (l : List ℕ) (acc : List ℚ), ∃ l', List.Sublist l' l ∧
      (generateLoop segGen cfg sr prompt n l acc).2 =
        l'.flatMap (fun i =>
          ((segGen (create_segment_prompt prompt i n) cfg.segment_duration i).2).map
            (total_progress i n)) := by
  intro l
  induction l with
  | nil => intro acc; exact ⟨[], List.Sublist.refl [], rfl⟩
  | cons i t ih =>
    intro acc
    rcases hcall : (segGen (create_segment_prompt prompt i n) cfg.segment_duration i).1
      with _ | seg
    · refine ⟨[i], List.Sublist.cons₂ i (List.nil_sublist t), ?_⟩
      simp [generateLoop, hcall, List.flatMap_cons]
    · obtain ⟨l', hsub, htr⟩ := ih
        (if i = 0 then acc ++ seg
         else crossfade_segments acc seg (cfg.overlap_duration * sr)
           (Int.toNat ⌊cfg.crossfade_duration * (sr : ℚ)⌋))
      refine ⟨i :: l', List.Sublist.cons₂ i hsub, ?_⟩
      simp [generateLoop, hcall, List.flatMap_cons, htr]

/-- C5: if every `generate_segment` call reports sub-progress values
that are non-decreasing and lie in `[0, 1]`, then the full sequence of
values handed to the top-level progress callback over the whole request
is monotonically non-decreasing and every reported value lies in
`[0, 1]`. -/
theorem generate_progress_monotone (segGen : SegmentGenerator)
    (cfg : ExtendedGenerationConfig) (sr : ℕ) (prompt : String)
    (hsub : ∀ pr d i, List.Chain' (· ≤ ·) (segGen pr d i).2 ∧
      ∀ p ∈ (segGen pr d i).2, 0 ≤ p ∧ p ≤ 1) :
    List.Chain' (· ≤ ·) (generate segGen cfg sr prompt).2 ∧
    ∀ v ∈ (generate segGen cfg sr prompt).2, 0 ≤ v ∧ v ≤ 1 := by
  have hgen2 : (generate segGen cfg sr prompt).2 =
      (generateLoop segGen cfg sr prompt cfg.num_segments
        (List.range cfg.num_segments) []).2 := rfl
  obtain ⟨l', hsubl, htr⟩ :=
    generateLoop_trace_flatMap segGen cfg sr prompt cfg.num_segments
      (List.range cfg.num_segments) []
  have hchain : ∀ i, List.Chain' (· ≤ ·)
      (((segGen (create_segment_prompt prompt i cfg.num_segments)
        cfg.segment_duration i).2).map (total_progress i cfg.num_segments)) := by
    intro i
    rw [List.chain'_map]
    exact ((hsub _ _ _).1).imp (fun a b h => total_progress_mono i cfg.num_segments a b h)
  have hlo : ∀ i, ∀ v ∈ (((segGen (create_segment_prompt prompt i cfg.num_segments)
      cfg.segment_duration i).2).map (total_progress i cfg.num_segments)),
      (i : ℚ) / cfg.num_segments ≤ v := by
    intro i v hv
    rcases List.mem_map.mp hv with ⟨p, hp, rfl⟩
    have hb := (hsub _ _ _).2 p hp
    exact (total_progress_bounds i cfg.num_segments p hb.1 hb.2).1
  have hhi : ∀ i, ∀ v ∈ (((segGen (create_segment_prompt prompt i cfg.num_segments)
      cfg.segment_duration i).2).map (total_progress i cfg.num_segments)),
      v ≤ ((i : ℚ) + 1) / cfg.num_segments := by
    intro i v hv
    rcases List.mem_map.mp hv with ⟨p, hp, rfl⟩
    have hb := (hsub _ _ _).2 p hp
    exact (total_progress_bounds i cfg.num_segments p hb.1 hb.2).2
  constructor
  · rw [hgen2, htr]
    exact chain_flatMap_blocks cfg.num_segments _ hchain hlo hhi l'
      ((List.pairwise_lt_range cfg.num_segments).sublist hsubl)
  · intro v hv
    rw [hgen2, htr] at hv
    rcases List.mem_flatMap.mp hv with ⟨i, hil, hvb⟩
    have hin : i < cfg.num_segments := List.mem_range.mp (hsubl.subset hil)
    have hnpos : 0 < cfg.num_segments := by omega
    constructor
    · have hlow := hlo i v hvb
      have h0 : (0 : ℚ) ≤ (i : ℚ) / cfg.num_segments := by positivity
      linarith
    · have hup := hhi i v hvb
      have hle1 : ((i : ℚ) + 1) / cfg.num_segments ≤ 1 := by
        rw [div_le_one (by exact_mod_cast hnpos)]
        have : (i + 1 : ℕ) ≤ cfg.num_segments := hin
        exact_mod_cast this
      linarith

/-- Witness for C5 on a one-segment plan whose single capability call
reports the sub-progress values 0 then 1. -/
theorem generate_progress_monotone_witness :
    List.Chain' (· ≤ ·)
      (generate (fun _ _ _ => (some [], [0, 1]))
        (ExtendedGenerationConfig.mk 1 28 4 2) 2 "p").2 ∧
    ∀ v ∈ (generate (fun _ _ _ => (some [], [0, 1]))
        (ExtendedGenerationConfig.mk 1 28 4 2) 2 "p").2,
      0 ≤ v ∧ v ≤ 1 :=
  generate_progress_monotone _ _ _ _ (by
    intro pr d i
    constructor
    · show List.Chain' (· ≤ ·) [0, 1]
      norm_num
    · intro p hp
      rcases List.mem_cons.mp hp with rfl | hp
      · norm_num
      · rcases List.mem_cons.mp hp with rfl | hp
        · norm_num
        · exact absurd hp (List.not_mem_nil p))

/-! ## Claim theorems: Dispatch Adapter -/

/-- C8: for every request longer than 30 seconds, the boolean abort
replies of the caller's progress callback are discarded by the extended
pipeline: two runs that differ only in those replies perform the same
computation — identical result buffer and identical reported progress
pairs — so a mid-segment abort request cannot stop the extended path.
(On the short path the callback is passed through unchanged and CAN
abort, which is why the reply function is threaded into the model at
all.) -/
theorem process_discards_abort (base : JobProcessorModel) (cfg : ExtendedGenerationConfig)
    (sr : ℕ) (prompt : String) (secs : ℕ) (cb₁ cb₂ : ℚ → ℚ → Bool) (h : 30 < secs) :
    ExtendedJobProcessor.process base cfg sr prompt secs cb₁ =
      ExtendedJobProcessor.process base cfg sr prompt secs cb₂ := by
  unfold ExtendedJobProcessor.process
  rw [if_neg (by omega), if_neg (by omega)]

/-- Witness for C8: an always-abort callback and a never-abort callback
give identical 31-second runs. -/
theorem process_discards_abort_witness :
    ExtendedJobProcessor.process
      ⟨fun _ _ => [(1, 2)], fun _ s => List.replicate s 0⟩
      ExtendedGenerationConfig.default 1000 "pw" 31 (fun _ _ => true) =
    ExtendedJobProcessor.process
      ⟨fun _ _ => [(1, 2)], fun _ s => List.replicate s 0⟩
      ExtendedGenerationConfig.default 1000 "pw" 31 (fun _ _ => false) :=
  process_discards_abort _ _ _ _ _ _ _ (by norm_num)

/-- C1 counterexample: with the 60-second configuration, a 100-second
request through `process` still returns `60 * sample_rate = 60000`
samples — the `secs` argument is ignored by the extended path — even
though the segments supplied 146000 ≥ 100000 samples before
truncation, so the claim's guard holds while its conclusion fails. -/
theorem process_ignores_secs_counterexample :
    ((generateLoop (MusicGPTSegmentGenerator bigSegmentProcessor) sixtySecondConfig 1 "p" 3
        (List.range 3) []).1.map List.length = some 146) ∧
    100 * 1 ≤ 146 ∧
    ((ExtendedJobProcessor.process bigSegmentProcessor sixtySecondConfig 1 "p" 100
        (fun _ _ => false)).1.map List.length = some 60) ∧
    (60 : ℕ) ≠ 100 * 1 := by
  have hov : sixtySecondConfig.overlap_duration * 1 = 4 := rfl
  have hcf : Int.toNat ⌊sixtySecondConfig.crossfade_duration * ((1 : ℕ) : ℚ)⌋ = 2 := by
    have hval : sixtySecondConfig.crossfade_duration * ((1 : ℕ) : ℚ) = ((2 : ℤ) : ℚ) := by
      norm_num [sixtySecondConfig]
    rw [hval, Int.floor_intCast]
    rfl
  have hlen1 : (crossfade_segments (List.replicate 50 ((1:ℚ)/2))
      (List.replicate 50 (1/2)) 4 2).length = 98 := by
    rw [crossfade_segments_length]
    norm_num
  have hlen2 : (crossfade_segments
      (crossfade_segments (List.replicate 50 ((1:ℚ)/2)) (List.replicate 50 (1/2)) 4 2)
      (List.replicate 50 (1/2)) 4 2).length = 146 := by
    rw [crossfade_segments_length, hlen1]
    norm_num
  have hrange : List.range 3 = [0, 1, 2] := rfl
  have e0 : generateLoop (MusicGPTSegmentGenerator bigSegmentProcessor) sixtySecondConfig
      1 "p" 3 [0, 1, 2] [] =
      ((generateLoop (MusicGPTSegmentGenerator bigSegmentProcessor) sixtySecondConfig
          1 "p" 3 [1, 2] ([] ++ List.replicate 50 ((1:ℚ)/2))).1,
        [] ++ (generateLoop (MusicGPTSegmentGenerator bigSegmentProcessor) sixtySecondConfig
          1 "p" 3 [1, 2] ([] ++ List.replicate 50 ((1:ℚ)/2))).2) := rfl
  have e1 : ∀ acc : List ℚ, generateLoop (MusicGPTSegmentGenerator bigSegmentProcessor)
      sixtySecondConfig 1 "p" 3 [1, 2] acc =
      ((generateLoop (MusicGPTSegmentGenerator bigSegmentProcessor) sixtySecondConfig
          1 "p" 3 [2] (crossfade_segments acc (List.replicate 50 ((1:ℚ)/2))
            (sixtySecondConfig.overlap_duration * 1)
            (Int.toNat ⌊sixtySecondConfig.crossfade_duration * ((1 : ℕ) : ℚ)⌋))).1,
        [] ++ (generateLoop (MusicGPTSegmentGenerator bigSegmentProcessor) sixtySecondConfig
          1 "p" 3 [2] (crossfade_segments acc (List.replicate 50 ((1:ℚ)/2))
            (sixtySecondConfig.overlap_duration * 1)
            (Int.toNat ⌊sixtySecondConfig.crossfade_duration * ((1 : ℕ) : ℚ)⌋))).2) :=
    fun acc => rfl
  have e2 : ∀ acc : List ℚ, generateLoop (MusicGPTSegmentGenerator bigSegmentProcessor)
      sixtySecondConfig 1 "p" 3 [2] acc =
      (some (crossfade_segments acc (List.replicate 50 ((1:ℚ)/2))
          (sixtySecondConfig.overlap_duration * 1)
          (Int.toNat ⌊sixtySecondConfig.crossfade_duration * ((1 : ℕ) : ℚ)⌋)),
        ([] : List ℚ)) :=
    fun acc => rfl
  have hbuf : (generateLoop (MusicGPTSegmentGenerator bigSegmentProcessor) sixtySecondConfig
      1 "p" 3 (List.range 3) []).1 =
      some (crossfade_segments
        (crossfade_segments (List.replicate 50 ((1:ℚ)/2)) (List.replicate 50 (1/2)) 4 2)
        (List.replicate 50 (1/2)) 4 2) := by
    rw [hrange, e0, e1, e2]
    dsimp only
    rw [hov, hcf, List.nil_append]
  refine ⟨?_, by norm_num, ?_, by norm_num⟩
  · rw [hbuf, Option.map_some', hlen2]
  · have hproc : (ExtendedJobProcessor.process bigSegmentProcessor sixtySecondConfig 1 "p" 100
        (fun _ _ => false)).1 =
        ((generateLoop (MusicGPTSegmentGenerator bigSegmentProcessor) sixtySecondConfig
          1 "p" 3 (List.range 3) []).1).map
            (fun buf => buf.take (sixtySecondConfig.target_duration * 1)) := rfl
    rw [hproc, hbuf]
    have htd : sixtySecondConfig.target_duration * 1 = 60 := rfl
    rw [Option.map_some', Option.map_some', List.length_take, htd, hlen2]
    norm_num

/-- C1 (amended): for every `process` call with `secs > 30` whose
segment loop succeeds with at least `target_duration * sample_rate`
accumulated samples, the returned buffer has exactly
`config.target_duration * sample_rate` samples; the `secs` argument
only selects the extended path and plays no role in segment planning or
final truncation, which are driven by the configured
`target_duration`. -/
theorem process_extended_length (base : JobProcessorModel) (cfg : ExtendedGenerationConfig)
    (sr : ℕ) (prompt : String) (secs : ℕ) (cb : ℚ → ℚ → Bool) (buf : List ℚ) (tr : List ℚ)
    (hsecs : 30 < secs)
    (hrun : generateLoop (MusicGPTSegmentGenerator base) cfg sr prompt cfg.num_segments
      (List.range cfg.num_segments) [] = (some buf, tr))
    (hlen : cfg.target_duration * sr ≤ buf.length) :
    (ExtendedJobProcessor.process base cfg sr prompt secs cb).1.map List.length =
      some (cfg.target_duration * sr) := by
  unfold ExtendedJobProcessor.process
  rw [if_neg (by omega)]
  unfold generate
  dsimp only
  rw [hrun]
  dsimp only
  rw [Option.map_some', Option.map_some', List.length_take, min_eq_left hlen]

/-- Witness for C1 (amended) on a one-segment plan delivering three
samples against a two-sample target. -/
theorem process_extended_length_witness :
    (ExtendedJobProcessor.process ⟨fun _ _ => [], fun _ _ => [1, 0, 1]⟩
      (ExtendedGenerationConfig.mk 1 28 4 2) 2 "p" 31 (fun _ _ => false)).1.map List.length =
      some ((ExtendedGenerationConfig.mk 1 28 4 2).target_duration * 2) :=
  process_extended_length ⟨fun _ _ => [], fun _ _ => [1, 0, 1]⟩
    (ExtendedGenerationConfig.mk 1 28 4 2) 2 "p" 31 (fun _ _ => false) [1, 0, 1] []
    (by norm_num) rfl (by norm_num)

end MusicGptClones
